import Mathlib

/-!
Shallow embedding of the Glulx interpreter core (`glulx-terp-rs`):
the image loader (`src/glulx_terp/mod.rs`, `src/glulx_terp/memory.rs`)
and the instruction decoder (`src/glulx_terp/operations/mod.rs`).

Conventions used throughout:
* Rust `u8`/`u32` machine integers are `Nat` with explicit `% 256` / `% 2^32`
  at the points where the source relies on their width.
* A fallible Rust function returning `Result<T, E>` becomes `Except E T`.
* A Rust panic (unchecked slice index, `expect`, `todo!`, arithmetic overflow
  in the overflow-checked interpretation) is modelled as `Option.none` of an
  outer `Option` layer, or as a dedicated outcome constructor.
* An `std::io::Cursor` over the byte vector becomes a `Reader`: the byte list
  plus the read position.
-/

set_option maxRecDepth 8000

deriving instance DecidableEq for Except

namespace Glulx

/-- A read cursor over the raw byte image, as `std::io::Cursor<&Vec<u8>>`:
the underlying bytes and the current position. -/
structure Reader where
  data : List Nat
  pos : Nat
deriving DecidableEq

/-- Embeds `binread::Error`, restricted to the variants this crate can produce:
an I/O (end-of-data) failure, a failed magic-number match while parsing the
header, and `NoVariantMatch { pos }` produced by
`OperandAddressingMode::try_fetch` for an unknown mode code. -/
inductive BinreadError where
  | IoErr : BinreadError
  | BadMagic : BinreadError
  | NoVariantMatch : Nat → BinreadError
deriving DecidableEq

/-- Embeds `memory::MemoryError` — exactly the two variants of the source. -/
inductive MemoryError where
  | NotEnoughData : Nat → MemoryError
  | BadChecksum : MemoryError
deriving DecidableEq

/-- The crate-level `Errors` enum. `FetchOperation` carries a formatted
`String` in the source (`format!("Couldn't convert '{value:X?}' into OPCode")`);
here it carries the numeric `value` interpolated into that message. -/
inductive Errors where
  | IOError : Errors
  | MemoryError : MemoryError → Errors
  | BinRead : BinreadError → Errors
  | FetchOperation : Nat → Errors
deriving DecidableEq

/-- Embeds `byteorder`'s `read_u8` on a cursor: one byte at `pos` (a `u8`, hence
`% 256`), advancing the cursor; `UnexpectedEof` past the end. -/
def readU8 (r : Reader) : Except Errors (Nat × Reader) :=
  match r.data[r.pos]? with
  | some b => .ok (b % 256, ⟨r.data, r.pos + 1⟩)
  | none => .error .IOError

/-- Embeds `read_u16::<BigEndian>`: two bytes, most significant first. -/
def readU16be (r : Reader) : Except Errors (Nat × Reader) :=
  match readU8 r with
  | .error e => .error e
  | .ok (hi, r') =>
    match readU8 r' with
    | .error e => .error e
    | .ok (lo, r'') => .ok (hi * 256 + lo, r'')

/-- Embeds `read_u32::<BigEndian>`: four bytes, most significant first. -/
def readU32be (r : Reader) : Except Errors (Nat × Reader) :=
  match readU16be r with
  | .error e => .error e
  | .ok (hi, r') =>
    match readU16be r' with
    | .error e => .error e
    | .ok (lo, r'') => .ok (hi * 65536 + lo, r'')

/-- Embeds `OperandMode` — the direction of an operand. -/
inductive OperandMode where
  | Load : OperandMode
  | Store : OperandMode
deriving DecidableEq

/-- Embeds `OperandAddressingMode` — the sixteen addressing-mode variants, with the
immediate payload (widened to `u32` by the source) where one exists. -/
inductive OperandAddressingMode where
  | ConstantZero : OperandAddressingMode
  | Constant1Byte : Nat → OperandAddressingMode
  | Constant2Bytes : Nat → OperandAddressingMode
  | Constant4Bytes : Nat → OperandAddressingMode
  | __Unused1 : OperandAddressingMode
  | ContentOfAddress1Byte : Nat → OperandAddressingMode
  | ContentOfAddress2Bytes : Nat → OperandAddressingMode
  | ContentOfAddress4Bytes : Nat → OperandAddressingMode
  | Stack : OperandAddressingMode
  | CallFrameLocalAtAddress1Byte : Nat → OperandAddressingMode
  | CallFrameLocalAtAddress2Bytes : Nat → OperandAddressingMode
  | CallFrameLocalAtAddress4Bytes : Nat → OperandAddressingMode
  | __Unused2 : OperandAddressingMode
  | ContentOfRAMAddress1Byte : Nat → OperandAddressingMode
  | ContentOfRAMAddress2Bytes : Nat → OperandAddressingMode
  | ContentOfRAMAddress4Bytes : Nat → OperandAddressingMode
deriving DecidableEq

/-- Embeds `OperandAddressingMode::try_fetch`: dispatch on the 4-bit mode code,
reading the immediate of the matching width.  The source's `match mode`
over `u8` literals is rendered as the equivalent chain of equality tests.
I/O failures of the inner reads are converted to `binread::Error` (`IoErr`),
as the `?` operator does in the source. -/
def OperandAddressingMode.try_fetch (r : Reader) (mode : Nat) :
    Except BinreadError (OperandAddressingMode × Reader) :=
  if mode = 0 then .ok (.ConstantZero, r)
  else if mode = 1 then
    match readU8 r with
    | .ok (v, r') => .ok (.Constant1Byte v, r')
    | .error _ => .error .IoErr
  else if mode = 2 then
    match readU16be r with
    | .ok (v, r') => .ok (.Constant2Bytes v, r')
    | .error _ => .error .IoErr
  else if mode = 3 then
    match readU32be r with
    | .ok (v, r') => .ok (.Constant4Bytes v, r')
    | .error _ => .error .IoErr
  else if mode = 4 then .ok (.__Unused1, r)
  else if mode = 5 then
    match readU8 r with
    | .ok (v, r') => .ok (.ContentOfAddress1Byte v, r')
    | .error _ => .error .IoErr
  else if mode = 6 then
    match readU16be r with
    | .ok (v, r') => .ok (.ContentOfAddress2Bytes v, r')
    | .error _ => .error .IoErr
  else if mode = 7 then
    match readU32be r with
    | .ok (v, r') => .ok (.ContentOfAddress4Bytes v, r')
    | .error _ => .error .IoErr
  else if mode = 8 then .ok (.Stack, r)
  else if mode = 9 then
    match readU8 r with
    | .ok (v, r') => .ok (.CallFrameLocalAtAddress1Byte v, r')
    | .error _ => .error .IoErr
  else if mode = 10 then
    match readU16be r with
    | .ok (v, r') => .ok (.CallFrameLocalAtAddress2Bytes v, r')
    | .error _ => .error .IoErr
  else if mode = 11 then
    match readU32be r with
    | .ok (v, r') => .ok (.CallFrameLocalAtAddress4Bytes v, r')
    | .error _ => .error .IoErr
  else if mode = 12 then .ok (.__Unused2, r)
  else if mode = 13 then
    match readU8 r with
    | .ok (v, r') => .ok (.ContentOfRAMAddress1Byte v, r')
    | .error _ => .error .IoErr
  else if mode = 14 then
    match readU16be r with
    | .ok (v, r') => .ok (.ContentOfRAMAddress2Bytes v, r')
    | .error _ => .error .IoErr
  else if mode = 15 then
    match readU32be r with
    | .ok (v, r') => .ok (.ContentOfRAMAddress4Bytes v, r')
    | .error _ => .error .IoErr
  else .error (.NoVariantMatch mode)

/-- Embeds `Operand`: a direction together with the decoded addressing mode. -/
structure Operand where
  operand_mode : OperandMode
  addressing_mode : OperandAddressingMode
deriving DecidableEq

/-- Embeds `OPCode` — the closed opcode enumeration of the source, in source order.
The numeric discriminants (`#[repr(u32)]`, explicit values plus `num_enum`'s
implicit successor rule) live in `OPCode.tryFrom` below. -/
inductive OPCode where
  | ADD | SUB | MUL | DIV | MOD | NEG
  | BITAND | BITOR | BITXOR | BITNOT | SHIFTL | SSHIFTR | USHIFTR
  | JUMP | JZ | JNZ | JEQ | JNE | JLT | JGE | JGT | JLE | JLTU | JGEU | JGTU | JLEU
  | JUMPABS
  | COPY | COPYS | COPYB | SEXS | SEXB
  | ALOAD | ALOADS | ALOADB | ALOADBIT | ASTORE | ASTORES | ASTOREB | ASTOREBIT
  | STKCOUNT | STKPEEK | STKSWAP | STKROLL | STKCOPY
  | CALL | RETURN | TAILCALL | CALLF | CALLFI | CALLFII | CALLFIII
  | CATCH | THROW
  | GETMEMSIZE | SETMEMSIZE
  | MALLOC | MFREE
  | QUIT | VERIFY | RESTART | SAVE | RESTORE | SAVEUNDO | RESTOREUNDO
  | PROTECT | HASUNDO | DISCARDUNDO
  | GETIOSYS | SETIOSYS | STREAMCHAR | STREAMNUM | STREAMSTR | STREAMUNICHAR
  | GETSTRINGTBL | SETSTRINGTBL
  | NUMTOF | FTONUMZ | FTONUMN | CEIL | FLOOR | FADD | FSUB | FMUL | FDIV | FMOD
  | SQRT | EXP | LOG | POW | SIN | COS | TAN | ASIN | ACOS | ATAN | ATAN2
  | NUMTOD | DTONUMZ | DTONUMN | FTOD | DTOF | DCEIL | DFLOOR
  | DADD | DSUB | DMUL | DDIV | DMODR | DMODQ | DSQRT | DEXP | DLOG | DPOW
  | DSIN | DCOS | DTAN | DASIN | DACOS | DATAN | DATAN2
  | JFEQ | JFNE | JFLT | JFLE | JFGT | JFGE | JISNAN | JISINF
  | JDEQ | JDNE | JDLT | JDLE | JDGT | JDGE | JDISNAN | JDISINF
  | RANDOM | SETRANDOM
  | MZERO | MCOPY
  | LINEARSEARCH | BINARYSEARCH | LINKEDSEARCH
  | ACCELFUNC | ACCELPARAM
  | NOP | GESTALT | DEBUGTRAP | GLK
deriving DecidableEq

/-- Embeds `num_enum`'s `TryFromPrimitive` for `OPCode`: the map from a `u32`
discriminant to the opcode.  Explicit discriminants are those written in the
source; an unannotated variant takes the previous value plus one. -/
def OPCode.tryFrom (v : Nat) : Option OPCode :=
  if v = 0x10 then some .ADD
  else if v = 0x11 then some .SUB
  else if v = 0x12 then some .MUL
  else if v = 0x13 then some .DIV
  else if v = 0x14 then some .MOD
  else if v = 0x15 then some .NEG
  else if v = 0x18 then some .BITAND
  else if v = 0x19 then some .BITOR
  else if v = 0x1A then some .BITXOR
  else if v = 0x1B then some .BITNOT
  else if v = 0x1C then some .SHIFTL
  else if v = 0x1D then some .SSHIFTR
  else if v = 0x1E then some .USHIFTR
  else if v = 0x20 then some .JUMP
  else if v = 0x22 then some .JZ
  else if v = 0x23 then some .JNZ
  else if v = 0x24 then some .JEQ
  else if v = 0x25 then some .JNE
  else if v = 0x26 then some .JLT
  else if v = 0x27 then some .JGE
  else if v = 0x28 then some .JGT
  else if v = 0x29 then some .JLE
  else if v = 0x2A then some .JLTU
  else if v = 0x2B then some .JGEU
  else if v = 0x2C then some .JGTU
  else if v = 0x2D then some .JLEU
  else if v = 0x104 then some .JUMPABS
  else if v = 0x40 then some .COPY
  else if v = 0x41 then some .COPYS
  else if v = 0x42 then some .COPYB
  else if v = 0x44 then some .SEXS
  else if v = 0x45 then some .SEXB
  else if v = 0x48 then some .ALOAD
  else if v = 0x49 then some .ALOADS
  else if v = 0x4A then some .ALOADB
  else if v = 0x4B then some .ALOADBIT
  else if v = 0x4C then some .ASTORE
  else if v = 0x4D then some .ASTORES
  else if v = 0x4E then some .ASTOREB
  else if v = 0x4F then some .ASTOREBIT
  else if v = 0x50 then some .STKCOUNT
  else if v = 0x51 then some .STKPEEK
  else if v = 0x52 then some .STKSWAP
  else if v = 0x53 then some .STKROLL
  else if v = 0x54 then some .STKCOPY
  else if v = 0x30 then some .CALL
  else if v = 0x31 then some .RETURN
  else if v = 0x34 then some .TAILCALL
  else if v = 0x160 then some .CALLF
  else if v = 0x161 then some .CALLFI
  else if v = 0x162 then some .CALLFII
  else if v = 0x163 then some .CALLFIII
  else if v = 0x32 then some .CATCH
  else if v = 0x33 then some .THROW
  else if v = 0x102 then some .GETMEMSIZE
  else if v = 0x103 then some .SETMEMSIZE
  else if v = 0x178 then some .MALLOC
  else if v = 0x179 then some .MFREE
  else if v = 0x120 then some .QUIT
  else if v = 0x121 then some .VERIFY
  else if v = 0x122 then some .RESTART
  else if v = 0x123 then some .SAVE
  else if v = 0x124 then some .RESTORE
  else if v = 0x125 then some .SAVEUNDO
  else if v = 0x126 then some .RESTOREUNDO
  else if v = 0x127 then some .PROTECT
  else if v = 0x128 then some .HASUNDO
  else if v = 0x129 then some .DISCARDUNDO
  else if v = 0x148 then some .GETIOSYS
  else if v = 0x149 then some .SETIOSYS
  else if v = 0x70 then some .STREAMCHAR
  else if v = 0x71 then some .STREAMNUM
  else if v = 0x72 then some .STREAMSTR
  else if v = 0x73 then some .STREAMUNICHAR
  else if v = 0x140 then some .GETSTRINGTBL
  else if v = 0x141 then some .SETSTRINGTBL
  else if v = 0x190 then some .NUMTOF
  else if v = 0x191 then some .FTONUMZ
  else if v = 0x192 then some .FTONUMN
  else if v = 0x198 then some .CEIL
  else if v = 0x199 then some .FLOOR
  else if v = 0x1A0 then some .FADD
  else if v = 0x1A1 then some .FSUB
  else if v = 0x1A2 then some .FMUL
  else if v = 0x1A3 then some .FDIV
  else if v = 0x1A4 then some .FMOD
  else if v = 0x1A8 then some .SQRT
  else if v = 0x1A9 then some .EXP
  else if v = 0x1AA then some .LOG
  else if v = 0x1AB then some .POW
  else if v = 0x1B0 then some .SIN
  else if v = 0x1B1 then some .COS
  else if v = 0x1B2 then some .TAN
  else if v = 0x1B3 then some .ASIN
  else if v = 0x1B4 then some .ACOS
  else if v = 0x1B5 then some .ATAN
  else if v = 0x1B6 then some .ATAN2
  else if v = 0x200 then some .NUMTOD
  else if v = 0x201 then some .DTONUMZ
  else if v = 0x202 then some .DTONUMN
  else if v = 0x203 then some .FTOD
  else if v = 0x204 then some .DTOF
  else if v = 0x208 then some .DCEIL
  else if v = 0x209 then some .DFLOOR
  else if v = 0x210 then some .DADD
  else if v = 0x211 then some .DSUB
  else if v = 0x212 then some .DMUL
  else if v = 0x213 then some .DDIV
  else if v = 0x214 then some .DMODR
  else if v = 0x215 then some .DMODQ
  else if v = 0x218 then some .DSQRT
  else if v = 0x219 then some .DEXP
  else if v = 0x21A then some .DLOG
  else if v = 0x21B then some .DPOW
  else if v = 0x220 then some .DSIN
  else if v = 0x221 then some .DCOS
  else if v = 0x222 then some .DTAN
  else if v = 0x223 then some .DASIN
  else if v = 0x224 then some .DACOS
  else if v = 0x225 then some .DATAN
  else if v = 0x226 then some .DATAN2
  else if v = 0x1C0 then some .JFEQ
  else if v = 0x1C1 then some .JFNE
  else if v = 0x1C2 then some .JFLT
  else if v = 0x1C3 then some .JFLE
  else if v = 0x1C4 then some .JFGT
  else if v = 0x1C5 then some .JFGE
  else if v = 0x1C8 then some .JISNAN
  else if v = 0x1C9 then some .JISINF
  else if v = 0x230 then some .JDEQ
  else if v = 0x231 then some .JDNE
  else if v = 0x232 then some .JDLT
  else if v = 0x233 then some .JDLE
  else if v = 0x234 then some .JDGT
  else if v = 0x235 then some .JDGE
  else if v = 0x238 then some .JDISNAN
  else if v = 0x239 then some .JDISINF
  else if v = 0x110 then some .RANDOM
  else if v = 0x111 then some .SETRANDOM
  else if v = 0x170 then some .MZERO
  else if v = 0x171 then some .MCOPY
  else if v = 0x150 then some .LINEARSEARCH
  else if v = 0x151 then some .BINARYSEARCH
  else if v = 0x152 then some .LINKEDSEARCH
  else if v = 0x180 then some .ACCELFUNC
  else if v = 0x181 then some .ACCELPARAM
  else if v = 0x00 then some .NOP
  else if v = 0x100 then some .GESTALT
  else if v = 0x101 then some .DEBUGTRAP
  else if v = 0x130 then some .GLK
  else none

/-- Embeds `OPCode::get_operand_types` — the `(loads, stores)` arity table,
with the source's grouping. -/
def OPCode.get_operand_types : OPCode → Nat × Nat
  | .STKSWAP | .QUIT | .RESTART | .DISCARDUNDO | .NOP => (0, 0)
  | .STKCOUNT | .GETMEMSIZE | .SAVEUNDO | .RESTOREUNDO | .HASUNDO
  | .VERIFY | .GETSTRINGTBL => (0, 1)
  | .GETIOSYS => (0, 2)
  | .JUMP | .JUMPABS | .STKCOPY | .RETURN | .MFREE | .STREAMCHAR
  | .STREAMUNICHAR | .STREAMNUM | .STREAMSTR | .SETSTRINGTBL | .SETRANDOM
  | .DEBUGTRAP => (1, 0)
  | .NEG | .BITNOT | .COPY | .COPYS | .COPYB | .SEXS | .SEXB | .STKPEEK
  | .CALLF
  | .CATCH -- IMPORTANT: SPECIAL CASE S1 before L1 (see fetch_for_opcode)
  | .SETMEMSIZE | .MALLOC | .SAVE | .RESTORE | .NUMTOF | .FTONUMZ | .FTONUMN
  | .CEIL | .FLOOR | .SQRT | .EXP | .LOG | .SIN | .COS | .TAN | .ACOS | .ASIN
  | .ATAN | .RANDOM => (1, 1)
  | .NUMTOD | .FTOD => (1, 2)
  | .JZ | .JNZ | .STKROLL | .TAILCALL | .THROW | .PROTECT | .SETIOSYS
  | .JISNAN | .JISINF | .MZERO | .ACCELFUNC | .ACCELPARAM => (2, 0)
  | .ADD | .SUB | .MUL | .DIV | .MOD | .BITAND | .BITOR | .BITXOR | .SHIFTL
  | .USHIFTR | .SSHIFTR | .ALOAD | .ALOADS | .ALOADB | .ALOADBIT | .CALL
  | .CALLFI | .FADD | .FSUB | .FMUL | .FDIV | .POW | .ATAN2 | .DTONUMZ
  | .DTONUMN | .DTOF | .GESTALT | .GLK => (2, 1)
  | .FMOD | .DCEIL | .DFLOOR | .DSQRT | .DEXP | .DLOG | .DSIN | .DCOS | .DTAN
  | .DACOS | .DASIN | .DATAN => (2, 2)
  | .JEQ | .JNE | .JLT | .JLE | .JGT | .JGE | .JLTU | .JLEU | .JGTU | .JGEU
  | .ASTORE | .ASTORES | .ASTOREB | .ASTOREBIT | .JFLT | .JFLE | .JFGT
  | .JFGE | .JDISNAN | .JDISINF | .MCOPY => (3, 0)
  | .CALLFII => (3, 1)
  | .JFEQ | .JFNE => (4, 0)
  | .CALLFIII => (4, 1)
  | .DADD | .DSUB | .DMUL | .DDIV | .DMODR | .DMODQ | .DPOW | .DATAN2 => (4, 2)
  | .JDLT | .JDLE | .JDGT | .JDGE => (5, 0)
  | .LINKEDSEARCH => (6, 1)
  | .JDEQ | .JDNE => (7, 0)
  | .LINEARSEARCH | .BINARYSEARCH => (7, 1)

/-- Embeds `Operation`: the decoded opcode plus its operand list. -/
structure Operation where
  code : OPCode
  operands : List Operand
deriving DecidableEq

/-- The mode-byte loop of `Operand::fetch_for_opcode`:
`for _ in 0..ceil(n/2) { modes = read_u8()?; push(modes & 0x0F); push((modes & 0xF0) >> 4) }`.
`count` is the number of mode bytes still to read.  For a byte `b < 256`
(`readU8` guarantees this), `b & 0x0F = b % 16` and `(b & 0xF0) >> 4 = b / 16`. -/
def readModeBytes (r : Reader) : Nat → Except Errors (List Nat × Reader)
  | 0 => .ok ([], r)
  | count + 1 =>
    match readU8 r with
    | .error e => .error e
    | .ok (modes, r') =>
      match readModeBytes r' count with
      | .error e => .error e
      | .ok (rest, r'') => .ok (modes % 16 :: modes / 16 :: rest, r'')

/-- The operand loop of `Operand::fetch_for_opcode`:
`for (raw_mode, operand_type) in operands_raw.iter().take(n).zip(types) { ... }`,
fetching each operand's addressing mode (and immediate) in order.
A `binread::Error` from `try_fetch` is wrapped as `Errors::BinRead`. -/
def fetchOperandsLoop (r : Reader) :
    List (Nat × OperandMode) → Except Errors (List Operand × Reader)
  | [] => .ok ([], r)
  | (raw_mode, operand_type) :: rest =>
    match OperandAddressingMode.try_fetch r raw_mode with
    | .error e => .error (.BinRead e)
    | .ok (am, r') =>
      match fetchOperandsLoop r' rest with
      | .error e => .error e
      | .ok (ops, r'') => .ok (⟨operand_type, am⟩ :: ops, r'')

/-- Embeds `Operand::fetch_for_opcode`.  The direction list `types` puts the Store
before the Load for `CATCH` and Loads before Stores for every other opcode.
The mode-byte count `(n as f32 / 2.0).ceil() as u32` is `(n + 1) / 2` in
exact arithmetic (`f32` is exact for these small `n`). -/
def Operand.fetch_for_opcode (r : Reader) (operation : OPCode) :
    Except Errors (List Operand × Reader) :=
  let operand_types := operation.get_operand_types
  let nb_operands := operand_types.1 + operand_types.2
  let types : List OperandMode :=
    if operation = .CATCH then
      List.replicate operand_types.2 .Store ++ List.replicate operand_types.1 .Load
    else
      List.replicate operand_types.1 .Load ++ List.replicate operand_types.2 .Store
  match readModeBytes r ((nb_operands + 1) / 2) with
  | .error e => .error e
  | .ok (operands_raw, r') =>
    fetchOperandsLoop r' ((operands_raw.take nb_operands).zip types)

/-- The variable-length opcode-number decoding at the head of
`Operation::fetch`, after the first byte `b0` has been read: one, two or
four bytes depending on the top bits.  In the four-byte arm the source does
`value -= 0xC100_0000` on a `u32`; wrapping subtraction is modelled as
addition of the two's complement modulo `2^32` (a debug build would panic on
the underflow instead). -/
def fetchOpcodeValue (b0 : Nat) (r : Reader) : Except Errors (Nat × Reader) :=
  if b0 &&& 0x80 ≠ 0 then
    match readU8 r with
    | .error e => .error e
    | .ok (b1, r') =>
      let value := (b0 <<< 8) + b1
      if value &&& 0xC000 = 0xC000 then
        match readU16be r' with
        | .error e => .error e
        | .ok (w, r'') =>
          .ok (((value <<< 16) + w + (2 ^ 32 - 0xC1000000)) % 2 ^ 32, r'')
      else
        .ok (value - 0x8000, r')
  else
    .ok (b0, r)

/-- Embeds `Operation::fetch`: seek the cursor to `pos`, decode the opcode number,
convert it (`UnknownOpcode` becomes `Errors::FetchOperation`), then decode
the operand list.  Returns the decoded operation together with the final
cursor position. -/
def Operation.fetch (data : List Nat) (pos : Nat) :
    Except Errors (Operation × Nat) :=
  match readU8 ⟨data, pos⟩ with
  | .error e => .error e
  | .ok (b0, r1) =>
    match fetchOpcodeValue b0 r1 with
    | .error e => .error e
    | .ok (value, r2) =>
      match OPCode.tryFrom value with
      | none => .error (.FetchOperation value)
      | some operation =>
        match Operand.fetch_for_opcode r2 operation with
        | .error e => .error e
        | .ok (operands, r3) => .ok (⟨operation, operands⟩, r3.pos)

/-- Embeds `Version` — the header's version field. -/
structure Version where
  major : Nat
  minor : Nat
  patch : Nat
deriving DecidableEq

/-- Embeds `Header` — the 36-byte big-endian prologue parsed by `binread`. -/
structure Header where
  version : Version
  ram_start : Nat
  ext_start : Nat
  end_mem : Nat
  stack_size : Nat
  start_func : Nat
  decoding_tree : Nat
  checksum : Nat
deriving DecidableEq

/-- Embeds `Memory` — the raw byte image plus the cached `ram_start`. -/
structure Memory where
  raw : List Nat
  start_ram_address : Nat
deriving DecidableEq

/-- The byte of `l` at index `p` as a `u8` (`0` as a default only feeds
positions that the callers have already bounds-checked). -/
def byteAt (l : List Nat) (p : Nat) : Nat := l.getD p 0 % 256

/-- The big-endian 32-bit word of `l` at byte offset `p`. -/
def word32 (l : List Nat) (p : Nat) : Nat :=
  byteAt l p * 2 ^ 24 + byteAt l (p + 1) * 2 ^ 16 +
    byteAt l (p + 2) * 2 ^ 8 + byteAt l (p + 3)

/-- The big-endian 16-bit word of `l` at byte offset `p`. -/
def word16 (l : List Nat) (p : Nat) : Nat := byteAt l p * 2 ^ 8 + byteAt l (p + 1)

/-- The magic bytes `b"Glul"`. -/
def glulMagic : List Nat := [0x47, 0x6C, 0x75, 0x6C]

/-- Embeds `Memory::get_u8`: an unchecked `Vec` index in the source
(`// TODO: Error handling`); an out-of-range access panics, modelled
as `none`. -/
def Memory.get_u8 (m : Memory) (pos : Nat) : Option Nat :=
  if pos + 1 ≤ m.raw.length then some (byteAt m.raw pos) else none

/-- Embeds `Memory::get_u16`: big-endian read of `self[pos..pos+2]`; a slice past
the end panics (`none`). -/
def Memory.get_u16 (m : Memory) (pos : Nat) : Option Nat :=
  if pos + 2 ≤ m.raw.length then some (word16 m.raw pos) else none

/-- Embeds `Memory::get_u32`: big-endian read of `self[pos..pos+4]`; a slice past
the end panics (`none`). -/
def Memory.get_u32 (m : Memory) (pos : Nat) : Option Nat :=
  if pos + 4 ≤ m.raw.length then some (word32 m.raw pos) else none

/-- Embeds `Memory::get_header`: `binread` parses the magic first (failing with a
bad-magic error), then the fixed fields; running out of bytes is an I/O
error.  Only `m.raw` is consulted. -/
def Memory.get_header (m : Memory) : Except BinreadError Header :=
  if m.raw.take 4 ≠ glulMagic then .error .BadMagic
  else if m.raw.length < 36 then .error .IoErr
  else
    .ok
      { version := ⟨word16 m.raw 4, byteAt m.raw 6, byteAt m.raw 7⟩
        ram_start := word32 m.raw 8
        ext_start := word32 m.raw 12
        end_mem := word32 m.raw 16
        stack_size := word32 m.raw 20
        start_func := word32 m.raw 24
        decoding_tree := word32 m.raw 28
        checksum := word32 m.raw 32 }

/-- Embeds `Memory::new`: reject images shorter than 36 bytes with
`NotEnoughData(len)`, then cache `ram_start` from the header —
`get_header().expect("Bad file header")` panics (`none`) when the header
does not parse (in particular on a bad magic number).  The byte vector is
stored unchanged. -/
def Memory.new (raw : List Nat) : Option (Except MemoryError Memory) :=
  if raw.length < 36 then some (.error (.NotEnoughData raw.length))
  else
    match Memory.get_header ⟨raw, 0⟩ with
    | .error _ => none
    | .ok header => some (.ok ⟨raw, header.ram_start⟩)

/-- The checksum summation loop of `GlulxTerp::from_reader`:
`while index < bound { checksum = checksum.wrapping_add(get_u32(index)); index += 4 }`.
The loop body is verbatim; `fuel` only bounds the recursion and is chosen by
the caller so that it cannot run out before the condition fails (the index
grows by 4 per iteration while fuel shrinks by 1).  `none` is the panic of
the unchecked `get_u32`. -/
def sumWhile (m : Memory) (bound : Nat) : Nat → Nat → Nat → Option Nat
  | 0, index, acc => if index < bound then none else some acc
  | fuel + 1, index, acc =>
    if index < bound then
      match m.get_u32 index with
      | none => none
      | some w => sumWhile m bound fuel (index + 4) ((acc + w) % 2 ^ 32)
    else some acc

/-- The checksum block of `GlulxTerp::from_reader`: read the header's
checksum word at offset 32, sum the words below offset 32 and from offset 36
up to the length, and compare.  `some b` reports whether the sums matched;
`none` is a panic inside the block. -/
def checksumStep (m : Memory) : Option Bool :=
  match m.get_u32 32 with
  | none => none
  | some valid_checksum =>
    match sumWhile m 32 m.raw.length 0 0 with
    | none => none
    | some c1 =>
      match sumWhile m m.raw.length m.raw.length 36 c1 with
      | none => none
      | some checksum => some (checksum = valid_checksum)

/-- Embeds `GlulxTerp` — the interpreter state: memory plus program counter. -/
structure GlulxTerp where
  memory : Memory
  pc : Nat
deriving DecidableEq

/-- Embeds `GlulxTerp::from_reader` on an already-read byte sequence: construct the
`Memory`, re-parse the header, verify the checksum, and return the
interpreter with `pc = start_func`.  `none` is a panic in any step. -/
def GlulxTerp.from_reader (raw : List Nat) : Option (Except Errors GlulxTerp) :=
  match Memory.new raw with
  | none => none
  | some (.error e) => some (.error (.MemoryError e))
  | some (.ok memory) =>
    match memory.get_header with
    | .error e => some (.error (.BinRead e))
    | .ok header =>
      match checksumStep memory with
      | none => none
      | some false => some (.error (.MemoryError .BadChecksum))
      | some true => some (.ok ⟨memory, header.start_func⟩)

/-- The observable outcome of one `GlulxTerp::step` call: a normal `Ok(())`
return, an `Err` return, or the `todo!("Execute the operation")` panic. -/
inductive StepOutcome where
  | ok : StepOutcome
  | err : Errors → StepOutcome
  | panicTodo : StepOutcome
deriving DecidableEq

/-- Embeds `GlulxTerp::step`: fetch the operation at `pc` (the `?` operator returns
the error), then hit `todo!("Execute the operation")`; the trailing `Ok(())`
of the source is unreachable.  The `print!`/`dbg!` output is not modelled. -/
def GlulxTerp.step (t : GlulxTerp) : StepOutcome :=
  match Operation.fetch t.memory.raw t.pc with
  | .error e => .err e
  | .ok _ => .panicTodo

/-- Reference value, following the claim's words (`C4`): the sum modulo
`2^32` of every big-endian 32-bit word of the image in `[0, len)`, with the
word at offset 32 contributing zero.  For an image whose length is a
multiple of four, the words in `[0, len)` sit at offsets `0, 4, …, len-4`. -/
def specChecksum (l : List Nat) : Nat :=
  (List.range' 0 (l.length / 4) 4).foldl
    (fun acc index => (acc + if index = 32 then 0 else word32 l index) % 2 ^ 32) 0

/-- The value computed by `readModeBytes` on an in-bounds region: for each
byte, its low nibble followed by its high nibble, in stream order
(proof-side description of the mode-byte loop; see `readModeBytes_eval`). -/
def modeNibbles (d : List Nat) : Nat → Nat → List Nat
  | _, 0 => []
  | p, c + 1 =>
    d.getD p 0 % 256 % 16 :: d.getD p 0 % 256 / 16 :: modeNibbles d (p + 1) c

/-- Forget the reader inside a decode result, keeping the operand list and
the final cursor position (the observable outcome of `fetch_for_opcode`). -/
def projFetch (x : Except Errors (List Operand × Reader)) :
    Except Errors (List Operand × Nat) :=
  x.map (fun y => (y.1, y.2.pos))

/-- A 36-byte image with magic `"Glul"`, a correct checksum, and an
inconsistent layout: `ram_start = 0x100` is greater than
`ext_start = 0x40` (and `end_mem = 0x40`).  `start_func = 0x24`. -/
def imgBadLayout : List Nat :=
  [0x47, 0x6C, 0x75, 0x6C, 0x00, 0x03, 0x01, 0x01,
   0x00, 0x00, 0x01, 0x00, 0x00, 0x00, 0x00, 0x40,
   0x00, 0x00, 0x00, 0x40, 0x00, 0x00, 0x01, 0x00,
   0x00, 0x00, 0x00, 0x24, 0x00, 0x00, 0x00, 0x00,
   0x47, 0x6F, 0x79, 0x11]

/-- A 36-byte image with magic `"Glul"`, a correct checksum and a
consistent layout `ram_start = ext_start = 0x24 ≤ end_mem = 0x100`; its
on-disk length 36 is far below `end_mem = 0x100`.  `start_func = 0x24`. -/
def imgConsistent : List Nat :=
  [0x47, 0x6C, 0x75, 0x6C, 0x00, 0x03, 0x01, 0x01,
   0x00, 0x00, 0x00, 0x24, 0x00, 0x00, 0x00, 0x24,
   0x00, 0x00, 0x01, 0x00, 0x00, 0x00, 0x01, 0x00,
   0x00, 0x00, 0x00, 0x24, 0x00, 0x00, 0x00, 0x00,
   0x47, 0x6F, 0x78, 0xD9]

/-- The image `imgConsistent` with one trailing byte: a 37-byte image (length not a
multiple of four) whose header still parses. -/
def imgLen37 : List Nat := imgConsistent ++ [0x00]

/-! ### Basic reader lemmas -/

theorem readU8_ok {r : Reader} {b : Nat} {r' : Reader}
    (h : readU8 r = .ok (b, r')) : r'.data = r.data ∧ r'.pos = r.pos + 1 := by
  unfold readU8 at h
  split at h
  · simp only [Except.ok.injEq, Prod.mk.injEq] at h
    obtain ⟨-, rfl⟩ := h
    exact ⟨rfl, rfl⟩
  · exact absurd h (by simp)

theorem readU16be_ok {r : Reader} {b : Nat} {r' : Reader}
    (h : readU16be r = .ok (b, r')) : r'.data = r.data ∧ r'.pos = r.pos + 2 := by
  unfold readU16be at h
  split at h
  · exact absurd h (by simp)
  · rename_i e₁ hi r₁ heq₁
    split at h
    · exact absurd h (by simp)
    · rename_i e₂ lo r₂ heq₂
      simp only [Except.ok.injEq, Prod.mk.injEq] at h
      obtain ⟨-, rfl⟩ := h
      obtain ⟨hd₁, hp₁⟩ := readU8_ok heq₁
      obtain ⟨hd₂, hp₂⟩ := readU8_ok heq₂
      exact ⟨by rw [hd₂, hd₁], by omega⟩

theorem readU32be_ok {r : Reader} {b : Nat} {r' : Reader}
    (h : readU32be r = .ok (b, r')) : r'.data = r.data ∧ r'.pos = r.pos + 4 := by
  unfold readU32be at h
  split at h
  · exact absurd h (by simp)
  · rename_i e₁ hi r₁ heq₁
    split at h
    · exact absurd h (by simp)
    · rename_i e₂ lo r₂ heq₂
      simp only [Except.ok.injEq, Prod.mk.injEq] at h
      obtain ⟨-, rfl⟩ := h
      obtain ⟨hd₁, hp₁⟩ := readU16be_ok heq₁
      obtain ⟨hd₂, hp₂⟩ := readU16be_ok heq₂
      exact ⟨by rw [hd₂, hd₁], by omega⟩

theorem try_fetch_mode0 (r : Reader) :
    OperandAddressingMode.try_fetch r 0 = .ok (.ConstantZero, r) := rfl

theorem try_fetch_mode1 (r : Reader) :
    OperandAddressingMode.try_fetch r 1 =
      match readU8 r with
      | .ok (v, r') => .ok (.Constant1Byte v, r')
      | .error _ => .error .IoErr := rfl

theorem try_fetch_mode2 (r : Reader) :
    OperandAddressingMode.try_fetch r 2 =
      match readU16be r with
      | .ok (v, r') => .ok (.Constant2Bytes v, r')
      | .error _ => .error .IoErr := rfl

theorem try_fetch_mode3 (r : Reader) :
    OperandAddressingMode.try_fetch r 3 =
      match readU32be r with
      | .ok (v, r') => .ok (.Constant4Bytes v, r')
      | .error _ => .error .IoErr := rfl

theorem try_fetch_mode4 (r : Reader) :
    OperandAddressingMode.try_fetch r 4 = .ok (.__Unused1, r) := rfl

theorem try_fetch_mode5 (r : Reader) :
    OperandAddressingMode.try_fetch r 5 =
      match readU8 r with
      | .ok (v, r') => .ok (.ContentOfAddress1Byte v, r')
      | .error _ => .error .IoErr := rfl

theorem try_fetch_mode6 (r : Reader) :
    OperandAddressingMode.try_fetch r 6 =
      match readU16be r with
      | .ok (v, r') => .ok (.ContentOfAddress2Bytes v, r')
      | .error _ => .error .IoErr := rfl

theorem try_fetch_mode7 (r : Reader) :
    OperandAddressingMode.try_fetch r 7 =
      match readU32be r with
      | .ok (v, r') => .ok (.ContentOfAddress4Bytes v, r')
      | .error _ => .error .IoErr := rfl

theorem try_fetch_mode8 (r : Reader) :
    OperandAddressingMode.try_fetch r 8 = .ok (.Stack, r) := rfl

theorem try_fetch_mode9 (r : Reader) :
    OperandAddressingMode.try_fetch r 9 =
      match readU8 r with
      | .ok (v, r') => .ok (.CallFrameLocalAtAddress1Byte v, r')
      | .error _ => .error .IoErr := rfl

theorem try_fetch_mode10 (r : Reader) :
    OperandAddressingMode.try_fetch r 10 =
      match readU16be r with
      | .ok (v, r') => .ok (.CallFrameLocalAtAddress2Bytes v, r')
      | .error _ => .error .IoErr := rfl

theorem try_fetch_mode11 (r : Reader) :
    OperandAddressingMode.try_fetch r 11 =
      match readU32be r with
      | .ok (v, r') => .ok (.CallFrameLocalAtAddress4Bytes v, r')
      | .error _ => .error .IoErr := rfl

theorem try_fetch_mode12 (r : Reader) :
    OperandAddressingMode.try_fetch r 12 = .ok (.__Unused2, r) := rfl

theorem try_fetch_mode13 (r : Reader) :
    OperandAddressingMode.try_fetch r 13 =
      match readU8 r with
      | .ok (v, r') => .ok (.ContentOfRAMAddress1Byte v, r')
      | .error _ => .error .IoErr := rfl

theorem try_fetch_mode14 (r : Reader) :
    OperandAddressingMode.try_fetch r 14 =
      match readU16be r with
      | .ok (v, r') => .ok (.ContentOfRAMAddress2Bytes v, r')
      | .error _ => .error .IoErr := rfl

theorem try_fetch_mode15 (r : Reader) :
    OperandAddressingMode.try_fetch r 15 =
      match readU32be r with
      | .ok (v, r') => .ok (.ContentOfRAMAddress4Bytes v, r')
      | .error _ => .error .IoErr := rfl

theorem readU8_ok_le {r : Reader} {b : Nat} {r' : Reader}
    (h : readU8 r = .ok (b, r')) : r'.data = r.data ∧ r.pos ≤ r'.pos :=
  ⟨(readU8_ok h).1, by have := (readU8_ok h).2; omega⟩

theorem readU16be_ok_le {r : Reader} {b : Nat} {r' : Reader}
    (h : readU16be r = .ok (b, r')) : r'.data = r.data ∧ r.pos ≤ r'.pos :=
  ⟨(readU16be_ok h).1, by have := (readU16be_ok h).2; omega⟩

theorem readU32be_ok_le {r : Reader} {b : Nat} {r' : Reader}
    (h : readU32be r = .ok (b, r')) : r'.data = r.data ∧ r.pos ≤ r'.pos :=
  ⟨(readU32be_ok h).1, by have := (readU32be_ok h).2; omega⟩

theorem try_fetch_mode_ge16 (r : Reader) (mode : Nat) (h : 16 ≤ mode) :
    OperandAddressingMode.try_fetch r mode = .error (.NoVariantMatch mode) := by
  unfold OperandAddressingMode.try_fetch
  iterate 16 rw [if_neg (by omega)]

theorem try_fetch_ok {r : Reader} {mode : Nat} {am : OperandAddressingMode}
    {r' : Reader} (h : OperandAddressingMode.try_fetch r mode = .ok (am, r')) :
    r'.data = r.data ∧ r.pos ≤ r'.pos := by
  rcases Nat.lt_or_ge mode 16 with hlt | hge
  · interval_cases mode <;>
      simp only [try_fetch_mode0, try_fetch_mode1, try_fetch_mode2,
        try_fetch_mode3, try_fetch_mode4, try_fetch_mode5, try_fetch_mode6,
        try_fetch_mode7, try_fetch_mode8, try_fetch_mode9, try_fetch_mode10,
        try_fetch_mode11, try_fetch_mode12, try_fetch_mode13, try_fetch_mode14,
        try_fetch_mode15] at h <;>
      first
      | (simp only [Except.ok.injEq, Prod.mk.injEq] at h
         obtain ⟨-, rfl⟩ := h
         exact ⟨rfl, Nat.le_refl _⟩)
      | (split at h
         · rename_i v r₁ heq
           simp only [Except.ok.injEq, Prod.mk.injEq] at h
           obtain ⟨-, rfl⟩ := h
           first
           | exact readU8_ok_le heq
           | exact readU16be_ok_le heq
           | exact readU32be_ok_le heq
         · exact absurd h (by simp))
  · rw [try_fetch_mode_ge16 r mode hge] at h
    exact absurd h (by simp)

theorem readModeBytes_ok :
    ∀ (count : Nat) (r : Reader) (raw : List Nat) (r' : Reader),
      readModeBytes r count = .ok (raw, r') →
      r'.data = r.data ∧ r'.pos = r.pos + count ∧ raw.length = 2 * count := by
  intro count
  induction count with
  | zero =>
    intro r raw r' h
    unfold readModeBytes at h
    simp only [Except.ok.injEq, Prod.mk.injEq] at h
    obtain ⟨rfl, rfl⟩ := h
    exact ⟨rfl, rfl, rfl⟩
  | succ c ih =>
    intro r raw r' h
    unfold readModeBytes at h
    split at h
    · exact absurd h (by simp)
    · rename_i modes r₁ heq₁
      split at h
      · exact absurd h (by simp)
      · rename_i rest r₂ heq₂
        simp only [Except.ok.injEq, Prod.mk.injEq] at h
        obtain ⟨rfl, rfl⟩ := h
        obtain ⟨hd₁, hp₁⟩ := readU8_ok heq₁
        obtain ⟨hd₂, hp₂, hlen⟩ := ih _ _ _ heq₂
        refine ⟨by rw [hd₂, hd₁], by omega, by simp [hlen]; omega⟩

theorem fetchOperandsLoop_map :
    ∀ (pairs : List (Nat × OperandMode)) (r : Reader) (ops : List Operand)
      (r' : Reader), fetchOperandsLoop r pairs = .ok (ops, r') →
      ops.map Operand.operand_mode = pairs.map Prod.snd := by
  intro pairs
  induction pairs with
  | nil =>
    intro r ops r' h
    unfold fetchOperandsLoop at h
    simp only [Except.ok.injEq, Prod.mk.injEq] at h
    obtain ⟨rfl, -⟩ := h
    rfl
  | cons p rest ih =>
    intro r ops r' h
    obtain ⟨raw_mode, ty⟩ := p
    unfold fetchOperandsLoop at h
    split at h
    · exact absurd h (by simp)
    · rename_i am r₁ heq₁
      split at h
      · exact absurd h (by simp)
      · rename_i ops₁ r₂ heq₂
        simp only [Except.ok.injEq, Prod.mk.injEq] at h
        obtain ⟨rfl, -⟩ := h
        simpa using ih _ _ _ heq₂

/-! ### Loader lemmas -/

theorem Memory.get_header_eval (raw : List Nat) (a : Nat)
    (hm : raw.take 4 = glulMagic) (hl : 36 ≤ raw.length) :
    Memory.get_header ⟨raw, a⟩ =
      .ok ⟨⟨word16 raw 4, byteAt raw 6, byteAt raw 7⟩, word32 raw 8,
        word32 raw 12, word32 raw 16, word32 raw 20, word32 raw 24,
        word32 raw 28, word32 raw 32⟩ := by
  unfold Memory.get_header
  rw [show (⟨raw, a⟩ : Memory).raw = raw from rfl]
  rw [if_neg (by simp [hm]), if_neg (by omega)]

theorem Memory.new_eval_ok (raw : List Nat) (hl : 36 ≤ raw.length)
    (hm : raw.take 4 = glulMagic) :
    Memory.new raw = some (.ok ⟨raw, word32 raw 8⟩) := by
  unfold Memory.new
  rw [if_neg (by omega), Memory.get_header_eval raw 0 hm hl]

theorem Memory.new_eval_badmagic (raw : List Nat) (hl : 36 ≤ raw.length)
    (hm : raw.take 4 ≠ glulMagic) : Memory.new raw = none := by
  unfold Memory.new
  rw [if_neg (by omega)]
  unfold Memory.get_header
  rw [show (⟨raw, 0⟩ : Memory).raw = raw from rfl]
  rw [if_pos hm]

theorem Memory.new_ok {raw : List Nat} {m : Memory}
    (h : Memory.new raw = some (.ok m)) :
    m.raw = raw ∧ m.start_ram_address = word32 raw 8 ∧
      36 ≤ raw.length ∧ raw.take 4 = glulMagic := by
  by_cases hlen : raw.length < 36
  · rw [show Memory.new raw = some (.error (.NotEnoughData raw.length)) from by
      unfold Memory.new; rw [if_pos hlen]] at h
    exact absurd h (by simp)
  · by_cases hm : raw.take 4 = glulMagic
    · rw [Memory.new_eval_ok raw (by omega) hm] at h
      simp only [Option.some.injEq, Except.ok.injEq] at h
      subst h
      exact ⟨rfl, rfl, by omega, hm⟩
    · rw [Memory.new_eval_badmagic raw (by omega) hm] at h
      exact absurd h (by simp)

theorem Memory.new_cases (raw : List Nat) (h : 36 ≤ raw.length) :
    Memory.new raw = none ∨
      Memory.new raw = some (.ok ⟨raw, word32 raw 8⟩) := by
  by_cases hm : raw.take 4 = glulMagic
  · exact Or.inr (Memory.new_eval_ok raw h hm)
  · exact Or.inl (Memory.new_eval_badmagic raw h hm)

theorem from_reader_eval {raw : List Nat} {m : Memory}
    (h : Memory.new raw = some (.ok m)) :
    GlulxTerp.from_reader raw =
      match checksumStep m with
      | none => none
      | some false => some (.error (.MemoryError .BadChecksum))
      | some true => some (.ok ⟨m, word32 raw 24⟩) := by
  obtain ⟨hraw, hsra, hlen, hmagic⟩ := Memory.new_ok h
  have hm2 : m = ⟨raw, m.start_ram_address⟩ := by
    obtain ⟨r, s⟩ := m
    have hr : r = raw := hraw
    rw [hr]
  have hgh : Memory.get_header m =
      .ok ⟨⟨word16 raw 4, byteAt raw 6, byteAt raw 7⟩, word32 raw 8,
        word32 raw 12, word32 raw 16, word32 raw 20, word32 raw 24,
        word32 raw 28, word32 raw 32⟩ := by
    conv_lhs => rw [hm2]
    exact Memory.get_header_eval raw _ hmagic hlen
  unfold GlulxTerp.from_reader
  simp only [h, hgh]

/-! ### Claim C1 — the four-byte opcode encoding -/

/-- Claim C1: the claim states that a first byte with top bits `11` makes
the decoder read three more bytes and subtract `0xC000_0000` from the
big-endian 32-bit value, so that `C0 00 01 04` decodes to `JUMPABS`
(`0x104`).  The source instead subtracts `0xC100_0000`
(`operations/mod.rs`, `value -= 0xC100_0000`): on the bytes
`C0 00 01 04` the wrapping subtraction yields `0xFF00_0104` (a checked
build would panic on the underflow), which is not an opcode, so fetching
fails with `FetchOperation` instead of producing `JUMPABS`. -/
theorem fetch_c0000104_unknown_opcode :
    Operation.fetch [0xC0, 0x00, 0x01, 0x04] 0 =
      .error (.FetchOperation 0xFF000104) ∧
    OPCode.tryFrom 0x104 = some .JUMPABS ∧
    OPCode.tryFrom 0xFF000104 = none := by
  refine ⟨by decide, by decide, by decide⟩

/-! ### Claim C2 — reserved addressing modes 4 and 12 -/

/-- Claim C2 counterexample: the claim states that decoding an operand with
mode code 4 or 12 fails with a `ReservedOperandMode` error.  In the source
`try_fetch` returns `Ok(__Unused1)` / `Ok(__Unused2)` for these codes (and
the crate has no `ReservedOperandMode` error at all): decoding `JUMP` with
mode byte `0x04` (and `0x0C`) succeeds and produces a reserved-mode
operand. -/
theorem reserved_mode_decode_succeeds :
    Operation.fetch [0x20, 0x04] 0 =
      .ok (⟨.JUMP, [⟨.Load, .__Unused1⟩]⟩, 2) ∧
    Operation.fetch [0x20, 0x0C] 0 =
      .ok (⟨.JUMP, [⟨.Load, .__Unused2⟩]⟩, 2) := by
  refine ⟨by decide, by decide⟩

/-- Claim C2 (amended): for every reader state, decoding mode code 4
(resp. 12) succeeds with the reserved variant `__Unused1` (resp.
`__Unused2`), consumes no immediate bytes, and raises no error; rejection
of reserved modes is left to later stages. -/
theorem try_fetch_reserved_modes (r : Reader) :
    OperandAddressingMode.try_fetch r 4 = .ok (.__Unused1, r) ∧
    OperandAddressingMode.try_fetch r 12 = .ok (.__Unused2, r) :=
  ⟨try_fetch_mode4 r, try_fetch_mode12 r⟩

/-! ### Claim C6 — magic check versus length check -/

/-- Claim C6 counterexample: the claim states the magic check happens
before any other check, failing with `BadMagic`.  On the 3-byte input
`[0, 1, 2]` (whose first bytes are not `"Glul"`) loading fails with
`NotEnoughData 3` — the length check fires first and no `BadMagic` error
exists in the crate. -/
theorem short_bad_magic_gives_not_enough_data :
    GlulxTerp.from_reader [0x00, 0x01, 0x02] =
      some (.error (.MemoryError (.NotEnoughData 3))) := by decide

/-- Claim C6 (amended): the length-≥-36 check precedes the magic check —
an input shorter than 36 bytes is rejected with `NotEnoughData` regardless
of its magic, and an input of length ≥ 36 whose first four bytes are not
`"Glul"` makes loading panic inside `get_header().expect(..)` (modelled as
`none`) rather than return a `BadMagic` error. -/
theorem length_check_precedes_magic_check (raw : List Nat) :
    (raw.length < 36 →
      GlulxTerp.from_reader raw =
        some (.error (.MemoryError (.NotEnoughData raw.length)))) ∧
    (36 ≤ raw.length → raw.take 4 ≠ glulMagic →
      GlulxTerp.from_reader raw = none) := by
  constructor
  · intro h
    unfold GlulxTerp.from_reader Memory.new
    rw [if_pos h]
  · intro hl hm
    unfold GlulxTerp.from_reader Memory.new
    rw [if_neg (by omega)]
    unfold Memory.get_header
    rw [if_pos (by simpa using hm)]

/-- Claim C6 witness: the amended theorem applied to the concrete inputs
`[0x05]` (too short) and 36 zero bytes (bad magic). -/
theorem length_check_precedes_magic_check_witness :
    GlulxTerp.from_reader [0x05] =
      some (.error (.MemoryError (.NotEnoughData 1))) ∧
    GlulxTerp.from_reader (List.replicate 36 0) = none :=
  ⟨by simpa using (length_check_precedes_magic_check [0x05]).1 (by decide),
   (length_check_precedes_magic_check (List.replicate 36 0)).2
     (by decide) (by decide)⟩

/-! ### Claim C7 — no layout validation -/

/-- Claim C7 counterexample: the claim states that a header with
`ram_start > ext_start` (here `0x100 > 0x40`, and also
`ext_start = 0x40 > 36 = len`) is rejected with `InconsistentLayout`.
The crate has no such error and performs no layout check: this image loads
successfully. -/
theorem bad_layout_loads_successfully :
    GlulxTerp.from_reader imgBadLayout =
      some (.ok ⟨⟨imgBadLayout, 0x100⟩, 0x24⟩) ∧
    word32 imgBadLayout 8 = 0x100 ∧ word32 imgBadLayout 12 = 0x40 ∧
    word32 imgBadLayout 16 = 0x40 ∧ imgBadLayout.length = 36 := by
  refine ⟨by decide, by decide, by decide, by decide, by decide⟩

/-- Claim C7 (amended): the loader never returns an
`InconsistentLayout`-style error for a layout violation — for any input of
length ≥ 36 the outcome is a panic (`none`), a `BadChecksum` failure, or
success; in particular a layout-violating image whose checksum matches
loads successfully. -/
theorem no_inconsistent_layout_error (raw : List Nat) (h : 36 ≤ raw.length) :
    GlulxTerp.from_reader raw = none ∨
    GlulxTerp.from_reader raw = some (.error (.MemoryError .BadChecksum)) ∨
    ∃ t, GlulxTerp.from_reader raw = some (.ok t) := by
  rcases Memory.new_cases raw h with hnew | hnew
  · left
    unfold GlulxTerp.from_reader
    rw [hnew]
  · rw [from_reader_eval hnew]
    cases hcs : checksumStep ⟨raw, word32 raw 8⟩ with
    | none => exact Or.inl rfl
    | some b =>
      cases b with
      | false => exact Or.inr (Or.inl rfl)
      | true => exact Or.inr (Or.inr ⟨_, rfl⟩)

/-- Claim C7 witness: the amended theorem applied to the layout-violating
image. -/
theorem no_inconsistent_layout_error_witness :
    GlulxTerp.from_reader imgBadLayout = none ∨
    GlulxTerp.from_reader imgBadLayout =
      some (.error (.MemoryError .BadChecksum)) ∨
    ∃ t, GlulxTerp.from_reader imgBadLayout = some (.ok t) :=
  no_inconsistent_layout_error imgBadLayout (by decide)

/-! ### Claim C8 — no zero padding up to `end_mem` -/

/-- Claim C8 counterexample: the claim states the buffer is extended with
zeroes up to `end_mem`, so reads in `[len, end_mem)` succeed and return
zero.  `imgConsistent` has `len = 36 < end_mem = 0x100` and loads
successfully, yet every read at address `0x40 ∈ [len, end_mem)`
(also `∈ [ext_start, end_mem)` since `ext_start = 0x24`) panics (`none`)
instead of returning zero. -/
theorem no_zero_padding_unreadable_tail :
    GlulxTerp.from_reader imgConsistent =
      some (.ok ⟨⟨imgConsistent, 0x24⟩, 0x24⟩) ∧
    word32 imgConsistent 12 = 0x24 ∧ word32 imgConsistent 16 = 0x100 ∧
    (⟨imgConsistent, 0x24⟩ : Memory).get_u8 0x40 = none ∧
    (⟨imgConsistent, 0x24⟩ : Memory).get_u16 0x40 = none ∧
    (⟨imgConsistent, 0x24⟩ : Memory).get_u32 0x40 = none := by
  refine ⟨by decide, by decide, by decide, by decide, by decide, by decide⟩

/-- Claim C8 (amended): `Memory::new` stores the input bytes unchanged —
no zero padding up to `end_mem` takes place — so every 8-bit read at an
address at or past the on-disk length is out of range and panics (`none`)
rather than returning zero. -/
theorem memory_new_no_padding (raw : List Nat) (m : Memory)
    (h : Memory.new raw = some (.ok m)) :
    m.raw = raw ∧ ∀ pos, raw.length ≤ pos → m.get_u8 pos = none := by
  obtain ⟨hraw, -, -, -⟩ := Memory.new_ok h
  refine ⟨hraw, fun pos hp => ?_⟩
  unfold Memory.get_u8
  rw [if_neg (by rw [hraw]; omega)]

/-- Claim C8 witness: the amended theorem applied to `imgConsistent` at
address 36 (= its length). -/
theorem memory_new_no_padding_witness :
    (⟨imgConsistent, 0x24⟩ : Memory).get_u8 36 = none :=
  (memory_new_no_padding imgConsistent ⟨imgConsistent, 0x24⟩
    (by decide)).2 36 (by decide)

/-! ### Claim C9 — out-of-range reads -/

/-- Claim C9: the claim states that out-of-range `get_u8`/`get_u16`/
`get_u32` reads return an `AddressOutOfRange(addr, width)` error.  The
source indexes the byte vector unchecked (each getter carries a
`// TODO: Error handling` comment) and panics — modelled as `none` — and
`MemoryError` has no `AddressOutOfRange` variant.  Concretely, on the
36-byte `imgConsistent` the reads below all run past the end. -/
theorem out_of_range_reads_panic :
    (⟨imgConsistent, 0x24⟩ : Memory).get_u8 36 = none ∧
    (⟨imgConsistent, 0x24⟩ : Memory).get_u16 35 = none ∧
    (⟨imgConsistent, 0x24⟩ : Memory).get_u32 33 = none := by
  refine ⟨by decide, by decide, by decide⟩

/-! ### Claim C10 — `step` never returns `Ok(())` -/

/-- Claim C10: `GlulxTerp::step` never returns `Ok(())`: when the fetch at
`pc` fails, `step` returns exactly that error; when the fetch succeeds,
`step` reaches the unconditional `todo!("Execute the operation")` panic
before executing anything. -/
theorem step_never_ok (t : GlulxTerp) :
    t.step ≠ .ok ∧
    (∀ e, t.step = .err e ↔ Operation.fetch t.memory.raw t.pc = .error e) ∧
    (∀ op n, Operation.fetch t.memory.raw t.pc = .ok (op, n) →
      t.step = .panicTodo) := by
  unfold GlulxTerp.step
  cases hf : Operation.fetch t.memory.raw t.pc with
  | error e =>
    refine ⟨by simp, fun e' => by simp, fun op n hcon => by cases hcon⟩
  | ok p =>
    refine ⟨by simp, fun e' => by simp, fun op n hcon => rfl⟩

/-- Claim C10 witness: on the empty image the fetch fails with an I/O
error, and `step` propagates exactly it. -/
theorem step_never_ok_witness :
    GlulxTerp.step ⟨⟨[], 0⟩, 0⟩ = .err .IOError :=
  ((step_never_ok ⟨⟨[], 0⟩, 0⟩).2.1 .IOError).mpr (by decide)

/-! ### Claim C3 — CATCH decodes its Store operand first -/

/-- Claim C3: a successful `CATCH` decode yields an operand list whose
first entry has direction `Store` and whose second has direction `Load`,
while every other opcode's decoded list is its `loads` Load operands
followed by its `stores` Store operands (in particular, all Loads precede
all Stores). -/
theorem get_operand_types_catch : OPCode.get_operand_types .CATCH = (1, 1) :=
  rfl

theorem catch_store_first_loads_first_otherwise (r : Reader) (op : OPCode)
    (ops : List Operand) (r' : Reader)
    (h : Operand.fetch_for_opcode r op = .ok (ops, r')) :
    (op = .CATCH → ops.map Operand.operand_mode = [.Store, .Load]) ∧
    (op ≠ .CATCH → ops.map Operand.operand_mode =
      List.replicate op.get_operand_types.1 .Load ++
        List.replicate op.get_operand_types.2 .Store) := by
  simp only [Operand.fetch_for_opcode] at h
  split at h
  · exact absurd h (by simp)
  · rename_i operands_raw r₁ heq
    have hmap := fetchOperandsLoop_map _ _ _ _ h
    obtain ⟨-, -, hlen⟩ := readModeBytes_ok _ _ _ _ heq
    by_cases hop : op = OPCode.CATCH
    · subst hop
      refine ⟨fun _ => ?_, fun hne => absurd rfl hne⟩
      rw [if_pos rfl] at hmap
      simp only [get_operand_types_catch] at hmap hlen
      norm_num at hmap hlen
      rw [List.map_snd_zip _ _ (by simp [hlen])] at hmap
      simpa using hmap
    · refine ⟨fun hc => absurd hc hop, fun _ => ?_⟩
      rw [if_neg hop] at hmap
      rw [List.map_snd_zip _ _ ?_] at hmap
      · exact hmap
      · simp only [List.length_append, List.length_replicate, List.length_take,
          hlen]
        omega

/-- Claim C3 witness: the theorem applied to a concrete `CATCH` decode
(mode byte `0x08`: low nibble Stack for the Store, high nibble
ConstantZero for the Load). -/
theorem catch_store_first_loads_first_otherwise_witness :
    ([⟨.Store, .Stack⟩, ⟨.Load, .ConstantZero⟩] : List Operand).map
        Operand.operand_mode = [.Store, .Load] :=
  (catch_store_first_loads_first_otherwise ⟨[0x08], 0⟩ .CATCH
    [⟨.Store, .Stack⟩, ⟨.Load, .ConstantZero⟩] ⟨[0x08], 1⟩ (by decide)).1 rfl

/-! ### Claim C5 machinery — mode-byte evaluation and locality -/

theorem readU8_ok_eval {d : List Nat} {p b : Nat} {r' : Reader}
    (h : readU8 ⟨d, p⟩ = .ok (b, r')) :
    b = byteAt d p ∧ r' = ⟨d, p + 1⟩ ∧ p < d.length := by
  unfold readU8 at h
  cases hx : d[p]? with
  | none => rw [hx] at h; exact absurd h (by simp)
  | some x =>
    rw [hx] at h
    simp only [Except.ok.injEq, Prod.mk.injEq] at h
    obtain ⟨hb, hr⟩ := h
    refine ⟨?_, hr.symm, ?_⟩
    · rw [← hb]
      unfold byteAt
      rw [List.getD_eq_getElem?_getD, hx]
      rfl
    · by_contra hc
      rw [List.getElem?_eq_none (by omega)] at hx
      cases hx

theorem readU8_eval {d : List Nat} {p : Nat} (hp : p < d.length) :
    readU8 ⟨d, p⟩ = .ok (byteAt d p, ⟨d, p + 1⟩) := by
  unfold readU8 byteAt
  rw [List.getD_eq_getElem?_getD, List.getElem?_eq_getElem hp]
  rfl

theorem readU8_eval_none {d : List Nat} {p : Nat} (hp : d.length ≤ p) :
    readU8 ⟨d, p⟩ = .error .IOError := by
  unfold readU8
  rw [show (⟨d, p⟩ : Reader).data[(⟨d, p⟩ : Reader).pos]? = d[p]? from rfl,
    List.getElem?_eq_none hp]

theorem readModeBytes_eval :
    ∀ (c : Nat) (d : List Nat) (p : Nat), p + c ≤ d.length →
      readModeBytes ⟨d, p⟩ c = .ok (modeNibbles d p c, ⟨d, p + c⟩) := by
  intro c
  induction c with
  | zero => intro d p hp; rfl
  | succ c ih =>
    intro d p hp
    have hp1 : p < d.length := by omega
    unfold readModeBytes
    simp only [readU8_eval hp1]
    simp only [ih d (p + 1) (by omega)]
    simp only [modeNibbles, byteAt]
    rw [show p + 1 + c = p + (c + 1) from by omega]

theorem readModeBytes_oob :
    ∀ (c : Nat) (d : List Nat) (p : Nat), 0 < c → d.length < p + c →
      readModeBytes ⟨d, p⟩ c = .error .IOError := by
  intro c
  induction c with
  | zero => intro d p hc hp; omega
  | succ c ih =>
    intro d p hc hp
    unfold readModeBytes
    by_cases hp1 : p < d.length
    · have hc2 : 0 < c := by omega
      simp only [readU8_eval hp1]
      simp only [ih d (p + 1) hc2 (by omega)]
    · simp only [readU8_eval_none (by omega : d.length ≤ p)]

theorem modeNibbles_getElem :
    ∀ (c : Nat) (d : List Nat) (p i : Nat), i < c →
      (modeNibbles d p c)[2 * i]? = some (byteAt d (p + i) % 16) ∧
      (modeNibbles d p c)[2 * i + 1]? = some (byteAt d (p + i) / 16) := by
  intro c
  induction c with
  | zero => intro d p i hi; omega
  | succ c ih =>
    intro d p i hi
    unfold modeNibbles
    cases i with
    | zero => simp [byteAt]
    | succ j =>
      rw [show 2 * (j + 1) = 2 * j + 1 + 1 from by omega]
      simp only [List.getElem?_cons_succ]
      have := ih d (p + 1) j (by omega)
      rw [show p + 1 + j = p + (j + 1) from by omega] at this
      exact this

theorem Reader.ext_eq {r : Reader} {d : List Nat} {p : Nat}
    (hd : r.data = d) (hp : r.pos = p) : r = ⟨d, p⟩ := by
  obtain ⟨rd, rp⟩ := r
  rw [show (⟨rd, rp⟩ : Reader).data = rd from rfl] at hd
  rw [show (⟨rd, rp⟩ : Reader).pos = rp from rfl] at hp
  rw [hd, hp]

theorem readU8_set (d : List Nat) (i v q : Nat) (h : i ≠ q) :
    readU8 ⟨d.set i v, q⟩ =
      (readU8 ⟨d, q⟩).map (fun x => (x.1, (⟨d.set i v, x.2.pos⟩ : Reader))) := by
  simp only [readU8]
  rw [List.getElem?_set_ne h]
  cases hx : d[q]? with
  | none => rfl
  | some b => rfl

theorem readU16be_set (d : List Nat) (i v q : Nat) (h : i < q) :
    readU16be ⟨d.set i v, q⟩ =
      (readU16be ⟨d, q⟩).map
        (fun x => (x.1, (⟨d.set i v, x.2.pos⟩ : Reader))) := by
  simp only [readU16be]
  rw [readU8_set d i v q (by omega)]
  cases hx : readU8 ⟨d, q⟩ with
  | error e => simp [Except.map]
  | ok x =>
    obtain ⟨b, r₁⟩ := x
    obtain ⟨-, hr, -⟩ := readU8_ok_eval hx
    subst hr
    simp only [Except.map]
    rw [readU8_set d i v (q + 1) (by omega)]
    cases hy : readU8 ⟨d, q + 1⟩ with
    | error e => simp [Except.map]
    | ok y =>
      obtain ⟨b₂, r₂⟩ := y
      simp [Except.map]

theorem readU32be_set (d : List Nat) (i v q : Nat) (h : i < q) :
    readU32be ⟨d.set i v, q⟩ =
      (readU32be ⟨d, q⟩).map
        (fun x => (x.1, (⟨d.set i v, x.2.pos⟩ : Reader))) := by
  simp only [readU32be]
  rw [readU16be_set d i v q h]
  cases hx : readU16be ⟨d, q⟩ with
  | error e => simp [Except.map]
  | ok x =>
    obtain ⟨b, r₁⟩ := x
    obtain ⟨hd1, hp1⟩ := readU16be_ok hx
    have hr : r₁ = ⟨d, q + 2⟩ := Reader.ext_eq hd1 hp1
    subst hr
    simp only [Except.map]
    rw [readU16be_set d i v (q + 2) (by omega)]
    cases hy : readU16be ⟨d, q + 2⟩ with
    | error e => simp [Except.map]
    | ok y =>
      obtain ⟨b₂, r₂⟩ := y
      simp [Except.map]

theorem try_fetch_set (d : List Nat) (i v q mode : Nat) (hiq : i < q) :
    OperandAddressingMode.try_fetch ⟨d.set i v, q⟩ mode =
      (OperandAddressingMode.try_fetch ⟨d, q⟩ mode).map
        (fun x => (x.1, (⟨d.set i v, x.2.pos⟩ : Reader))) := by
  rcases Nat.lt_or_ge mode 16 with hlt | hge
  · interval_cases mode <;>
      simp only [try_fetch_mode0, try_fetch_mode1, try_fetch_mode2,
        try_fetch_mode3, try_fetch_mode4, try_fetch_mode5, try_fetch_mode6,
        try_fetch_mode7, try_fetch_mode8, try_fetch_mode9, try_fetch_mode10,
        try_fetch_mode11, try_fetch_mode12, try_fetch_mode13, try_fetch_mode14,
        try_fetch_mode15] <;>
      first
      | rfl
      | (rw [readU8_set d i v q (by omega)]
         cases hx : readU8 ⟨d, q⟩ with
         | error e => simp [Except.map]
         | ok x => obtain ⟨b, r₁⟩ := x; simp [Except.map])
      | (rw [readU16be_set d i v q hiq]
         cases hx : readU16be ⟨d, q⟩ with
         | error e => simp [Except.map]
         | ok x => obtain ⟨b, r₁⟩ := x; simp [Except.map])
      | (rw [readU32be_set d i v q hiq]
         cases hx : readU32be ⟨d, q⟩ with
         | error e => simp [Except.map]
         | ok x => obtain ⟨b, r₁⟩ := x; simp [Except.map])
  · rw [try_fetch_mode_ge16 _ _ hge, try_fetch_mode_ge16 _ _ hge]
    rfl

theorem fetchOperandsLoop_set :
    ∀ (pairs : List (Nat × OperandMode)) (d : List Nat) (i v q : Nat),
      i < q →
      fetchOperandsLoop ⟨d.set i v, q⟩ pairs =
        (fetchOperandsLoop ⟨d, q⟩ pairs).map
          (fun x => (x.1, (⟨d.set i v, x.2.pos⟩ : Reader))) := by
  intro pairs
  induction pairs with
  | nil => intro d i v q hiq; rfl
  | cons pr rest ih =>
    intro d i v q hiq
    obtain ⟨mode, ty⟩ := pr
    simp only [fetchOperandsLoop]
    rw [try_fetch_set d i v q mode hiq]
    cases ht : OperandAddressingMode.try_fetch ⟨d, q⟩ mode with
    | error e => simp [Except.map]
    | ok x =>
      obtain ⟨am, r₁⟩ := x
      obtain ⟨rd₁, rp₁⟩ := r₁
      obtain ⟨hd1, hq1⟩ := try_fetch_ok ht
      have hdd : rd₁ = d := hd1
      subst hdd
      have hqq : q ≤ rp₁ := hq1
      simp only [Except.map]
      rw [ih rd₁ i v rp₁ (by omega)]
      cases hl : fetchOperandsLoop ⟨rd₁, rp₁⟩ rest with
      | error e => simp [Except.map]
      | ok y =>
        obtain ⟨ops, r₂⟩ := y
        simp [Except.map]

theorem modeNibbles_take_set :
    ∀ (c : Nat) (d : List Nat) (p v : Nat), 0 < c →
      v % 256 % 16 = d.getD (p + c - 1) 0 % 256 % 16 →
      (modeNibbles (d.set (p + c - 1) v) p c).take (2 * c - 1) =
        (modeNibbles d p c).take (2 * c - 1) := by
  intro c
  induction c with
  | zero => intro d p v hc hv; omega
  | succ c ih =>
    intro d p v hc hv
    cases c with
    | zero =>
      simp only [modeNibbles]
      rw [show p + 1 - 1 = p from by omega] at hv ⊢
      rw [show 2 * 1 - 1 = 1 from by omega]
      simp only [List.take_succ_cons, List.take_zero]
      rw [show (d.set p v).getD p 0 = ((d.set p v)[p]?).getD 0 from
        List.getD_eq_getElem?_getD _ _ _]
      by_cases hp : p < d.length
      · rw [List.getElem?_set_eq_of_lt v hp]
        rw [show (some v).getD 0 = v from rfl, hv,
          List.getD_eq_getElem?_getD]
      · rw [List.set_eq_of_length_le (by omega)]
        rw [List.getD_eq_getElem?_getD]
    | succ c' =>
      have hi : p + (c' + 1 + 1) - 1 = p + (c' + 1) := by omega
      rw [hi] at hv ⊢
      conv_lhs => rw [modeNibbles]
      conv_rhs => rw [modeNibbles]
      have hne : p + (c' + 1) ≠ p := by omega
      rw [show ((d.set (p + (c' + 1)) v).getD p 0) =
        (((d.set (p + (c' + 1)) v))[p]?).getD 0 from
          List.getD_eq_getElem?_getD _ _ _]
      rw [List.getElem?_set_ne hne]
      rw [show 2 * (c' + 1 + 1) - 1 = (2 * (c' + 1) - 1) + 1 + 1 from by omega]
      simp only [List.take_succ_cons]
      rw [← List.getD_eq_getElem?_getD]
      have harg : p + 1 + (c' + 1) - 1 = p + (c' + 1) := by omega
      have := ih d (p + 1) v (by omega) (by rw [harg]; exact hv)
      rw [harg] at this
      rw [this]

theorem projFetch_map_set (dd : List Nat)
    (x : Except Errors (List Operand × Reader)) :
    projFetch (x.map (fun y => (y.1, (⟨dd, y.2.pos⟩ : Reader)))) =
      projFetch x := by
  cases x with
  | error e => rfl
  | ok y => obtain ⟨a, b⟩ := y; rfl

/-- Claim C5: operand packing.  (1) For an opcode with `n = loads + stores`
operands, the mode-byte loop consumes exactly `ceil(n/2) = (n+1)/2` bytes
(leaving the data untouched and producing `2·ceil(n/2)` nibbles).
(2) The nibble at even index `2i` is the low nibble of the `i`-th mode byte
and the nibble at `2i+1` is its high nibble — low before high.
(3) When `n` is odd, the trailing high nibble of the last mode byte is
ignored without being checked: replacing that high nibble by any value
`hv < 16` leaves the decoded operand list and final position unchanged.
(4) Decoding `ADD` (arity `(2,1)`) at bytes `10 01 05 03 AB` consumes
5 bytes in total: the cursor ends at `pc + 5`. -/
theorem operand_packing :
    (∀ (op : OPCode) (r : Reader) (raw : List Nat) (r' : Reader),
      readModeBytes r
          ((op.get_operand_types.1 + op.get_operand_types.2 + 1) / 2) =
        .ok (raw, r') →
      r'.data = r.data ∧
      r'.pos = r.pos +
        (op.get_operand_types.1 + op.get_operand_types.2 + 1) / 2 ∧
      raw.length =
        2 * ((op.get_operand_types.1 + op.get_operand_types.2 + 1) / 2)) ∧
    (∀ (d : List Nat) (p c : Nat) (raw : List Nat) (r' : Reader),
      readModeBytes ⟨d, p⟩ c = .ok (raw, r') →
      ∀ i, i < c →
        raw[2 * i]? = some (byteAt d (p + i) % 16) ∧
        raw[2 * i + 1]? = some (byteAt d (p + i) / 16)) ∧
    (∀ (op : OPCode) (d : List Nat) (p hv : Nat), hv < 16 →
      (op.get_operand_types.1 + op.get_operand_types.2) % 2 = 1 →
      projFetch (Operand.fetch_for_opcode
        ⟨d.set (p + (op.get_operand_types.1 + op.get_operand_types.2 + 1) / 2 - 1)
            (d.getD (p + (op.get_operand_types.1 + op.get_operand_types.2 + 1) / 2 - 1) 0
              % 16 + 16 * hv),
          p⟩ op) =
        projFetch (Operand.fetch_for_opcode ⟨d, p⟩ op)) ∧
    Operation.fetch [0x10, 0x01, 0x05, 0x03, 0xAB] 0 =
      .ok (⟨.ADD, [⟨.Load, .Constant1Byte 0x03⟩, ⟨.Load, .ConstantZero⟩,
        ⟨.Store, .ContentOfAddress1Byte 0xAB⟩]⟩, 5) := by
  refine ⟨?_, ?_, ?_, by decide⟩
  · intro op r raw r' h
    obtain ⟨hd, hp, hlen⟩ := readModeBytes_ok _ _ _ _ h
    exact ⟨hd, hp, hlen⟩
  · intro d p c raw r' h i hi
    have hc : 0 < c := by omega
    by_cases hlen : p + c ≤ d.length
    · rw [readModeBytes_eval c d p hlen] at h
      simp only [Except.ok.injEq, Prod.mk.injEq] at h
      obtain ⟨rfl, -⟩ := h
      exact modeNibbles_getElem c d p i hi
    · rw [readModeBytes_oob c d p hc (by omega)] at h
      exact absurd h (by simp)
  · intro op d p hv hhv hodd
    rcases hop : op.get_operand_types with ⟨t1, t2⟩
    rw [hop] at hodd
    simp only at hodd
    simp only [Operand.fetch_for_opcode, hop]
    have hc : 0 < (t1 + t2 + 1) / 2 := by omega
    by_cases hlen : p + (t1 + t2 + 1) / 2 ≤ d.length
    · have hlen' : p + (t1 + t2 + 1) / 2 ≤
          (d.set (p + (t1 + t2 + 1) / 2 - 1)
            (d.getD (p + (t1 + t2 + 1) / 2 - 1) 0 % 16 + 16 * hv)).length := by
        rw [List.length_set]
        exact hlen
      simp only [readModeBytes_eval _ _ _ hlen', readModeBytes_eval _ _ _ hlen]
      have hnt : t1 + t2 = 2 * ((t1 + t2 + 1) / 2) - 1 := by omega
      have hveq : (d.getD (p + (t1 + t2 + 1) / 2 - 1) 0 % 16 + 16 * hv)
          % 256 % 16 =
          d.getD (p + (t1 + t2 + 1) / 2 - 1) 0 % 256 % 16 := by omega
      have htake := modeNibbles_take_set ((t1 + t2 + 1) / 2) d p
        (d.getD (p + (t1 + t2 + 1) / 2 - 1) 0 % 16 + 16 * hv) hc hveq
      rw [← hnt] at htake
      rw [htake]
      rw [fetchOperandsLoop_set _ d (p + (t1 + t2 + 1) / 2 - 1)
        (d.getD (p + (t1 + t2 + 1) / 2 - 1) 0 % 16 + 16 * hv)
        (p + (t1 + t2 + 1) / 2) (by omega)]
      exact projFetch_map_set _ _
    · have hlen2 :
          (d.set (p + (t1 + t2 + 1) / 2 - 1)
            (d.getD (p + (t1 + t2 + 1) / 2 - 1) 0 % 16 + 16 * hv)).length <
            p + (t1 + t2 + 1) / 2 := by
        rw [List.length_set]
        omega
      rw [readModeBytes_oob _ _ _ hc hlen2,
        readModeBytes_oob _ _ _ hc (by omega)]

/-- Claim C5 witness: part (1) applied to `ADD`'s two mode bytes
`01 05`, and part (3) applied to `ADD` with the trailing high nibble of
the last mode byte rewritten from `0` to `9` (`0x05` ↦ `0x95`). -/
theorem operand_packing_witness :
    (⟨[0x01, 0x05], 2⟩ : Reader).pos = 0 + 2 ∧
    projFetch (Operand.fetch_for_opcode ⟨[0x01, 0x95, 0x03, 0xAB], 0⟩ .ADD) =
      projFetch (Operand.fetch_for_opcode ⟨[0x01, 0x05, 0x03, 0xAB], 0⟩ .ADD)
    := by
  constructor
  · exact (operand_packing.1 .ADD ⟨[0x01, 0x05], 0⟩ [1, 0, 5, 0]
      ⟨[0x01, 0x05], 2⟩ (by decide)).2.1
  · have happ := operand_packing.2.2.1 .ADD [0x01, 0x05, 0x03, 0xAB] 0 9
      (by decide) (by decide)
    rw [show ([0x01, 0x05, 0x03, 0xAB] : List Nat).set
        (0 + (OPCode.ADD.get_operand_types.1 +
          OPCode.ADD.get_operand_types.2 + 1) / 2 - 1)
        (([0x01, 0x05, 0x03, 0xAB] : List Nat).getD
          (0 + (OPCode.ADD.get_operand_types.1 +
            OPCode.ADD.get_operand_types.2 + 1) / 2 - 1) 0 % 16 + 16 * 9) =
        [0x01, 0x95, 0x03, 0xAB] from by decide] at happ
    exact happ

/-! ### Claim C4 machinery — the checksum loops as folds -/

theorem foldl_mod_lt (g : Nat → Nat) :
    ∀ (l : List Nat) (a : Nat), a < 2 ^ 32 →
      l.foldl (fun acc i => (acc + g i) % 2 ^ 32) a < 2 ^ 32 := by
  intro l
  induction l with
  | nil => intro a ha; simpa using ha
  | cons x xs ih =>
    intro a ha
    exact ih _ (Nat.mod_lt _ (by norm_num))

theorem sumWhile_eq_fold (m : Memory) :
    ∀ (k fuel index acc : Nat), k ≤ fuel →
      index + 4 * k ≤ m.raw.length →
      sumWhile m (index + 4 * k) fuel index acc =
        some ((List.range' index k 4).foldl
          (fun a i => (a + word32 m.raw i) % 2 ^ 32) acc) := by
  intro k
  induction k with
  | zero =>
    intro fuel index acc hk hlen
    cases fuel with
    | zero => simp [sumWhile]
    | succ f => simp [sumWhile]
  | succ k ih =>
    intro fuel index acc hk hlen
    cases fuel with
    | zero => omega
    | succ f =>
      have hidx : index < index + 4 * (k + 1) := by omega
      have hg : m.get_u32 index = some (word32 m.raw index) := by
        unfold Memory.get_u32
        rw [if_pos (by omega)]
      simp only [sumWhile, if_pos hidx, hg]
      rw [show index + 4 * (k + 1) = index + 4 + 4 * k from by omega]
      rw [ih f (index + 4) ((acc + word32 m.raw index) % 2 ^ 32)
        (by omega) (by omega)]
      rw [List.range'_succ]
      simp [List.foldl_cons]

theorem specChecksum_eq (raw : List Nat) (k : Nat)
    (hlen : raw.length = 36 + 4 * k) :
    specChecksum raw =
      (List.range' 36 k 4).foldl (fun a i => (a + word32 raw i) % 2 ^ 32)
        ((List.range' 0 8 4).foldl
          (fun a i => (a + word32 raw i) % 2 ^ 32) 0) := by
  unfold specChecksum
  rw [show raw.length / 4 = 9 + k from by omega]
  have h1 : List.range' 0 9 4 = List.range' 0 8 4 ++ [32] := by
    have h := List.range'_append 0 8 1 4
    norm_num at h
    exact h.symm
  have h2 : List.range' 0 (9 + k) 4 =
      List.range' 0 9 4 ++ List.range' 36 k 4 := by
    have h := List.range'_append 0 9 k 4
    norm_num at h
    rw [show 9 + k = k + 9 from by omega]
    exact h.symm
  rw [h2, h1, List.foldl_append, List.foldl_append]
  have hf1 : (List.range' 0 8 4).foldl
      (fun acc index =>
        (acc + if index = 32 then 0 else word32 raw index) % 2 ^ 32) 0 =
      (List.range' 0 8 4).foldl
        (fun a i => (a + word32 raw i) % 2 ^ 32) 0 := by
    apply List.foldl_ext
    intro a b hb
    rw [List.mem_range'] at hb
    obtain ⟨j, hj, rfl⟩ := hb
    rw [if_neg (by omega)]
  rw [hf1]
  have hA : (List.range' 0 8 4).foldl
      (fun a i => (a + word32 raw i) % 2 ^ 32) 0 < 2 ^ 32 :=
    foldl_mod_lt _ _ _ (by norm_num)
  have h32 : ([32] : List Nat).foldl
      (fun acc index =>
        (acc + if index = 32 then 0 else word32 raw index) % 2 ^ 32)
      ((List.range' 0 8 4).foldl
        (fun a i => (a + word32 raw i) % 2 ^ 32) 0) =
      (List.range' 0 8 4).foldl
        (fun a i => (a + word32 raw i) % 2 ^ 32) 0 := by
    simp only [List.foldl_cons, List.foldl_nil, if_pos]
    norm_num
    exact hA
  rw [h32]
  apply List.foldl_ext
  intro a b hb
  rw [List.mem_range'] at hb
  obtain ⟨j, hj, rfl⟩ := hb
  rw [if_neg (by omega)]

theorem checksumStep_eq (m : Memory) (h36 : 36 ≤ m.raw.length)
    (h4 : m.raw.length % 4 = 0) :
    checksumStep m = some (decide (specChecksum m.raw = word32 m.raw 32)) := by
  obtain ⟨k, hk⟩ : ∃ k, m.raw.length = 36 + 4 * k :=
    ⟨(m.raw.length - 36) / 4, by omega⟩
  unfold checksumStep
  have hg32 : m.get_u32 32 = some (word32 m.raw 32) := by
    unfold Memory.get_u32
    rw [if_pos (by omega)]
  simp only [hg32]
  have h1 := sumWhile_eq_fold m 8 m.raw.length 0 0 (by omega) (by omega)
  rw [show (0 : Nat) + 4 * 8 = 32 from rfl] at h1
  simp only [h1]
  rw [hk]
  have h2 := sumWhile_eq_fold m k (36 + 4 * k) 36
    ((List.range' 0 8 4).foldl
      (fun a i => (a + word32 m.raw i) % 2 ^ 32) 0)
    (by omega) (by omega)
  simp only [h2]
  rw [specChecksum_eq m.raw k hk]

/-! ### Claim C4 — the checksum comparison -/

/-- Claim C4 counterexample: the claim quantifies over every image accepted
up to the checksum step.  The 37-byte image `imgLen37` (a valid header plus
one trailing byte) is accepted by `Memory::new`, but its length is not a
multiple of four, so the checksum loop's final `get_u32` reads past the end
of the buffer and panics (`none`) — loading neither succeeds nor fails with
`BadChecksum`. -/
theorem checksum_len37_panics :
    Memory.new imgLen37 = some (.ok ⟨imgLen37, 0x24⟩) ∧
    imgLen37.length = 37 ∧
    GlulxTerp.from_reader imgLen37 = none := by
  refine ⟨by decide, by decide, by decide⟩

/-- Claim C4 (amended): for every image accepted up to the checksum step
whose length is a multiple of four, loading succeeds past that step if and
only if the header's checksum word (offset 32) equals the sum modulo `2^32`
of every big-endian 32-bit word of the image in `[0, len)` with the word at
offset 32 contributing zero; otherwise it fails with `BadChecksum`. -/
theorem checksum_step_iff (raw : List Nat) (m : Memory)
    (hnew : Memory.new raw = some (.ok m)) (h4 : raw.length % 4 = 0) :
    GlulxTerp.from_reader raw =
      if specChecksum raw = word32 raw 32 then some (.ok ⟨m, word32 raw 24⟩)
      else some (.error (.MemoryError .BadChecksum)) := by
  obtain ⟨hraw, -, hlen, -⟩ := Memory.new_ok hnew
  rw [from_reader_eval hnew]
  rw [checksumStep_eq m (by rw [hraw]; omega) (by rw [hraw]; omega)]
  rw [hraw]
  by_cases hc : specChecksum raw = word32 raw 32
  · rw [if_pos hc, decide_eq_true hc]
  · rw [if_neg hc, decide_eq_false hc]

/-- Claim C4 witness: the amended theorem applied to the concrete image
`imgConsistent` (whose checksum is in fact valid). -/
theorem checksum_step_iff_witness :
    GlulxTerp.from_reader imgConsistent =
      if specChecksum imgConsistent = word32 imgConsistent 32
      then some (.ok ⟨⟨imgConsistent, 0x24⟩, word32 imgConsistent 24⟩)
      else some (.error (.MemoryError .BadChecksum)) :=
  checksum_step_iff imgConsistent ⟨imgConsistent, 0x24⟩ (by decide) (by decide)

end Glulx
